import Mathlib

/-!
Verification of the Mercado Libre listing scraper (`mercadolibre.py`).

The Python source is shallowly embedded: each Python function used by a
claim is translated into an executable Lean definition over `Nat`, `Int`,
`String`, `List` and `Option`.  Python dictionaries holding one listing
item are modelled by the structure `Item`; Python's `None` becomes
`Option.none`.  Character-level operations (`str.lower`, `str.isdigit`,
`str.strip`) are modelled on the ASCII subset that the scraped data and
the claims exercise.
-/

namespace ML

/-- A listing item: the dictionary produced by `parse_results_from_html`
and mutated by `collect_results` and `sort_items_by_price`. -/
structure Item where
  title : String
  price : Option String
  link : String
  image : Option String
  discount_percent : Option Int
  condition : Option String
  position : Nat
deriving DecidableEq, Repr

/-- Python whitespace for `str.strip()` (ASCII subset). -/
def isPySpace (c : Char) : Bool :=
  c = ' ' || c = '\t' || c = '\n' || c = '\r' || c = '\x0b' || c = '\x0c'

/-- Python `s.strip()` on the ASCII whitespace subset. -/
def pyStrip (s : String) : String :=
  String.mk (((s.data.dropWhile isPySpace).reverse.dropWhile isPySpace).reverse)

/-- Value of an ASCII digit list read in base 10, as Python `int(digits)`. -/
def digitsToNat (cs : List Char) : Nat :=
  cs.foldl (fun a c => 10 * a + (c.toNat - 48)) 0

/-- Translation of `parse_price_value`: keep the digit characters of the
display string and read them as a decimal integer; `None`, the empty
string and digit-free strings give `None`.  (`str.isdigit` is modelled on
ASCII digits, which covers every price string the site produces.) -/
def parse_price_value (price_text : Option String) : Option Nat :=
  match price_text with
  | none => none
  | some s =>
    if s = "" then none
    else
      let digits := s.data.filter Char.isDigit
      if digits.isEmpty then none
      else some (digitsToNat digits)

/-- Lowercasing of one character (`str.lower`, ASCII range). -/
def lowerChar (c : Char) : Char :=
  if 'A' ≤ c ∧ c ≤ 'Z' then Char.ofNat (c.toNat + 32) else c

/-- Python `s.lower()` on the ASCII range. -/
def pyLower (s : String) : String := String.mk (s.data.map lowerChar)

/-- Does `text` start with `pat`? -/
def listStarts : List Char → List Char → Bool
  | [], _ => true
  | _ :: _, [] => false
  | p :: ps, t :: ts => p = t && listStarts ps ts

/-- Does `text` contain `pat` as a contiguous run? -/
def listHasRun : List Char → List Char → Bool
  | pat, [] => pat.isEmpty
  | pat, t :: ts => listStarts pat (t :: ts) || listHasRun pat ts

/-- Python substring test `needle in haystack`. -/
def strContains (haystack needle : String) : Bool :=
  listHasRun needle.data haystack.data

/-- Translation of the per-item predicate inside `apply_filters`
(`mercadolibre.py` lines 645-656): an item survives iff it passes the
price bounds, the single lowercase word filter and the minimum-discount
filter.  `word_lc` is the already lowercased/stripped word. -/
def keepItem (min_price max_price : Int) (word_lc : String) (min_discount : Int)
    (item : Item) : Bool :=
  let price_val := parse_price_value item.price
  let minOk : Bool :=
    !(decide (min_price > 0) &&
      (match price_val with
       | none => true
       | some v => decide ((v : Int) < min_price)))
  let maxOk : Bool :=
    !(decide (max_price > 0) &&
      (match price_val with
       | none => true
       | some v => decide ((v : Int) > max_price)))
  let wordOk : Bool :=
    !(!(word_lc = "") && !(strContains (pyLower item.title) word_lc))
  let discOk : Bool :=
    !(decide (min_discount > 0) &&
      (match item.discount_percent with
       | none => true
       | some d => decide (d < min_discount)))
  minOk && maxOk && wordOk && discOk

/-- Translation of `apply_filters` as it stands in `src/mercadolibre.py`:
price bounds, one required word against the lowercase title, minimum
discount.  Note that this version has no `include_words` or
`exclude_words` parameters even though `src/server.py` and the batch job
pass them. -/
def apply_filters (items : List Item) (min_price max_price : Int) (word : String)
    (min_discount : Int) : List Item :=
  let word_lc := pyLower (pyStrip word)
  items.filter (keepItem min_price max_price word_lc min_discount)

/-- Modelled from the spec: the `apply_filters` variant with include and
exclude word lists that `src/server.py` calls
(`include_words=...`, `exclude_words=...`) is missing from `src/`; spec
§4.7 describes it as predicate composition in the order price bounds,
required/include substrings against the lowercase title, exclude
substrings (any match excludes), minimum discount. -/
def apply_filters_spec (items : List Item) (min_price max_price : Int)
    (include_words exclude_words : List String) (min_discount : Int) : List Item :=
  items.filter (fun item =>
    let price_val := parse_price_value item.price
    let title_lc := (pyLower item.title)
    (!(decide (min_price > 0) &&
        (match price_val with
         | none => true
         | some v => decide ((v : Int) < min_price)))) &&
    (!(decide (max_price > 0) &&
        (match price_val with
         | none => true
         | some v => decide ((v : Int) > max_price)))) &&
    include_words.all (fun w => strContains title_lc (pyLower w)) &&
    exclude_words.all (fun w => !(strContains title_lc (pyLower w))) &&
    (!(decide (min_discount > 0) &&
        (match item.discount_percent with
         | none => true
         | some d => decide (d < min_discount)))))

/-- Translation of the constant `LOCAL_SHIPPING_FILTER`. -/
def LOCAL_SHIPPING_FILTER : String := "SHIPPING*ORIGIN_10215068"

/-- Translation of `CONDITION_TOKEN_BY_FILTER.get`. -/
def conditionTokenByFilter (c : String) : Option String :=
  if c = "new" then some "ITEM*CONDITION_2230284"
  else if c = "used" then some "ITEM*CONDITION_2230581"
  else if c = "reconditioned" then some "ITEM*CONDITION_2234833"
  else none

/-- Translation of `build_filter_tokens` (`mercadolibre.py` lines 240-265),
appending the tokens in the source's order. -/
def build_filter_tokens (min_price max_price min_discount : Int)
    (sort_price exclude_international : Bool) (condition_filter : String) :
    List String :=
  let tokens : List String := []
  let tokens := if sort_price then tokens ++ ["OrderId_PRICE"] else tokens
  let tokens :=
    if min_price > 0 ∨ max_price > 0 then
      let low := max 0 min_price
      let high := if max_price > 0 then max_price else 999999999
      let low' := if high < low then high else low
      let high' := if high < low then low else high
      tokens ++ ["PriceRange_" ++ (toString low' ++ ("-" ++ toString high'))]
    else tokens
  let tokens :=
    if min_discount > 0 then
      tokens ++ ["Discount_" ++ (toString (max 1 (min min_discount 100)) ++ "-100")]
    else tokens
  let tokens :=
    match conditionTokenByFilter condition_filter with
    | some t => tokens ++ [t]
    | none => tokens
  let tokens := tokens ++ ["NoIndex_True"]
  if exclude_international then tokens ++ [LOCAL_SHIPPING_FILTER] else tokens

/-- Price-range token as the spec words it: low bound is the min price
floored at 0, the max defaults to 999999999 when unset, and the two
bounds are swapped when the defaulted max is below the min (equivalently:
the smaller goes first). -/
def specPriceToken (min_price max_price : Int) : String :=
  let low := max 0 min_price
  let defaultedMax := if max_price > 0 then max_price else 999999999
  "PriceRange_" ++ (toString (min low defaultedMax) ++ ("-" ++
    toString (max low defaultedMax)))

/-- Filter-token list exactly as claim C5 words it: sort token iff
sorting, price token only if a bound is set, discount token only if the
minimum discount is positive (value clamped into 1-100), condition token
for the three known filters, the no-index token always, and the local
shipping token unless international results are included. -/
def specFilterTokenList (min_price max_price min_discount : Int)
    (sort_price exclude_international : Bool) (condition_filter : String) :
    List String :=
  (if sort_price then ["OrderId_PRICE"] else [])
  ++ (if min_price > 0 ∨ max_price > 0 then [specPriceToken min_price max_price] else [])
  ++ (if min_discount > 0 then
        ["Discount_" ++ (toString (min 100 (max 1 min_discount)) ++ "-100")]
      else [])
  ++ (if condition_filter = "new" then ["ITEM*CONDITION_2230284"]
      else if condition_filter = "used" then ["ITEM*CONDITION_2230581"]
      else if condition_filter = "reconditioned" then ["ITEM*CONDITION_2234833"]
      else [])
  ++ ["NoIndex_True"]
  ++ (if exclude_international then [LOCAL_SHIPPING_FILTER] else [])

/-- Sort key of `sort_items_by_price.key_fn`: unpriced items map to
`(1, 10^18)`, priced items to `(0, value)`. -/
def price_key (it : Item) : Nat × Nat :=
  match parse_price_value it.price with
  | none => (1, 1000000000000000000)
  | some p => (0, p)

/-- Lexicographic comparison of sort keys, as Python compares tuples. -/
def itemLeB (a b : Item) : Bool :=
  decide ((price_key a).1 < (price_key b).1) ||
    (decide ((price_key a).1 = (price_key b).1) &&
     decide ((price_key a).2 ≤ (price_key b).2))

/-- Propositional form of `itemLeB`. -/
def itemLe (a b : Item) : Prop := itemLeB a b = true

instance : DecidableRel itemLe := fun a b => instDecidableEqBool (itemLeB a b) true

instance : IsTotal Item itemLe := by
  constructor
  intro a b
  simp only [itemLe, itemLeB, Bool.or_eq_true, Bool.and_eq_true, decide_eq_true_eq]
  omega

instance : IsTrans Item itemLe := by
  constructor
  intro a b c
  simp only [itemLe, itemLeB, Bool.or_eq_true, Bool.and_eq_true, decide_eq_true_eq]
  omega

/-- Renumbering loop of `sort_items_by_price`: assign positions
`i, i+1, ...` along the list. -/
def setPositions (i : Nat) : List Item → List Item
  | [] => []
  | x :: xs => { x with position := i } :: setPositions (i + 1) xs

/-- Translation of `sort_items_by_price`: Python's `sorted` is the unique
stable sort for the key order, which `List.insertionSort` computes
(earlier elements are inserted in front of later key-equal ones); then
positions are renumbered from 1. -/
def sort_items_by_price (items : List Item) : List Item :=
  setPositions 1 (List.insertionSort itemLe items)

/-- Forget an item's position, to compare item sequences up to the
renumbering the sorter performs. -/
def stripPos (it : Item) : Item := { it with position := 0 }

/-- Ordering claimed for the parsed prices of the sorted output: a priced
item never follows an unpriced one, and priced values are nondecreasing. -/
def optPriceLe : Option Nat → Option Nat → Prop
  | none, some _ => False
  | some a, some b => a ≤ b
  | _, _ => True

/-- Cell values of `build_xlsx_bytes.rows`: Python `int` or `str`. -/
inductive CellVal where
  | num (v : Nat)
  | txt (v : String)
deriving DecidableEq, Repr

/-- Escape of one character; mapping each character independently gives
the same output as the source's sequential `str.replace` chain, because
that chain replaces `&` first and the later replacements introduce no
character that an earlier pass targets. -/
def xmlEscapeChar (c : Char) : String :=
  if c = '&' then "&amp;"
  else if c = '<' then "&lt;"
  else if c = '>' then "&gt;"
  else if c = '"' then "&quot;"
  else if c = '\'' then "&apos;"
  else String.mk [c]

/-- Translation of `xml_escape`. -/
def xml_escape (value : String) : String :=
  String.join (value.data.map xmlEscapeChar)

/-- Translation of the `state_map.get(..., "N/D")` lookup. -/
def stateMap (c : String) : String :=
  if c = "new" then "Nuevo"
  else if c = "used" then "Usado"
  else if c = "reconditioned" then "Reacondicionado"
  else "N/D"

/-- Header row of `build_xlsx_bytes`. -/
def xlsxHeaders : List CellVal :=
  [.txt "Posicion", .txt "Titulo", .txt "Precio", .txt "Descuento",
   .txt "Estado", .txt "Link"]

/-- One item row of `build_xlsx_bytes`: the first cell is the running
`enumerate(items, start=1)` index `idx`, not the item's `position`
field. -/
def itemCells (idx : Nat) (item : Item) : List CellVal :=
  [.num idx,
   .txt item.title,
   .txt (item.price.getD ""),
   .txt (match item.discount_percent with
         | some d => toString d ++ "%"
         | none => ""),
   .txt (stateMap (pyLower (item.condition.getD ""))),
   .txt item.link]

/-- Item rows numbered from `start=1`, as the source's `enumerate`. -/
def itemRowsFrom : Nat → List Item → List (List CellVal)
  | _, [] => []
  | i, it :: rest => itemCells i it :: itemRowsFrom (i + 1) rest

/-- Translation of the `rows` list of `build_xlsx_bytes`: header row then
one row per item. -/
def xlsxRows (items : List Item) : List (List CellVal) :=
  xlsxHeaders :: itemRowsFrom 1 items

/-- Column-letter loop of `build_xlsx_bytes` (`while n: n, rem =
divmod(n - 1, 26); col = chr(65 + rem) + col`), with fuel `n`, which
bounds the iteration count since the quotient strictly decreases. -/
def colGo : Nat → Nat → List Char → List Char
  | 0, _, acc => acc
  | fuel + 1, n, acc =>
    if n = 0 then acc
    else colGo fuel ((n - 1) / 26) (Char.ofNat (65 + (n - 1) % 26) :: acc)

/-- Spreadsheet column letters: 1 is A, 26 is Z, 27 is AA. -/
def colName (n : Nat) : String := String.mk (colGo n n [])

/-- One cell's XML: numeric cells as typed values, strings as escaped
inline strings. -/
def cellXml (rIdx cIdx : Nat) (v : CellVal) : String :=
  let ref := colName cIdx ++ toString rIdx
  match v with
  | .num k => "<c r=\"" ++ (ref ++ ("\"><v>" ++ (toString k ++ "</v></c>")))
  | .txt t =>
    "<c r=\"" ++ (ref ++ ("\" t=\"inlineStr\"><is><t>" ++ (xml_escape t ++ "</t></is></c>")))

/-- Cells of one row, column indices from `start=1`. -/
def cellsXmlFrom (rIdx : Nat) : Nat → List CellVal → List String
  | _, [] => []
  | c, v :: rest => cellXml rIdx c v :: cellsXmlFrom rIdx (c + 1) rest

/-- One `<row>` element. -/
def rowXml (rIdx : Nat) (row : List CellVal) : String :=
  "<row r=\"" ++ (toString rIdx ++ ("\">" ++
    (String.join (cellsXmlFrom rIdx 1 row) ++ "</row>")))

/-- The `sheet_rows` list, row indices from `start=1`. -/
def sheetRowsXml : Nat → List (List CellVal) → List String
  | _, [] => []
  | r, row :: rest => rowXml r row :: sheetRowsXml (r + 1) rest

/-- Worksheet `<row>` elements of `build_xlsx_bytes` for an item list. -/
def xlsxSheetRows (items : List Item) : List String :=
  sheetRowsXml 1 (xlsxRows items)

/-- Translation of `sheet_xml`. -/
def sheet_xml (items : List Item) : String :=
  "<?xml version=\"1.0\" encoding=\"UTF-8\" standalone=\"yes\"?>"
  ++ "<worksheet xmlns=\"http://schemas.openxmlformats.org/spreadsheetml/2006/main\">"
  ++ ("<sheetData>" ++ String.join (xlsxSheetRows items) ++ "</sheetData>")
  ++ "</worksheet>"

/-- Translation of `workbook_xml`. -/
def workbook_xml : String :=
  "<?xml version=\"1.0\" encoding=\"UTF-8\" standalone=\"yes\"?>"
  ++ "<workbook xmlns=\"http://schemas.openxmlformats.org/spreadsheetml/2006/main\" "
  ++ "xmlns:r=\"http://schemas.openxmlformats.org/officeDocument/2006/relationships\">"
  ++ "<sheets><sheet name=\"Resultados\" sheetId=\"1\" r:id=\"rId1\"/></sheets>"
  ++ "</workbook>"

/-- Translation of `rels_xml`. -/
def rels_xml : String :=
  "<?xml version=\"1.0\" encoding=\"UTF-8\" standalone=\"yes\"?>"
  ++ "<Relationships xmlns=\"http://schemas.openxmlformats.org/package/2006/relationships\">"
  ++ "<Relationship Id=\"rId1\" "
  ++ "Type=\"http://schemas.openxmlformats.org/officeDocument/2006/relationships/officeDocument\" "
  ++ "Target=\"xl/workbook.xml\"/>"
  ++ "</Relationships>"

/-- Translation of `workbook_rels_xml`. -/
def workbook_rels_xml : String :=
  "<?xml version=\"1.0\" encoding=\"UTF-8\" standalone=\"yes\"?>"
  ++ "<Relationships xmlns=\"http://schemas.openxmlformats.org/package/2006/relationships\">"
  ++ "<Relationship Id=\"rId1\" "
  ++ "Type=\"http://schemas.openxmlformats.org/officeDocument/2006/relationships/worksheet\" "
  ++ "Target=\"worksheets/sheet1.xml\"/>"
  ++ "</Relationships>"

/-- Translation of `content_types_xml`. -/
def content_types_xml : String :=
  "<?xml version=\"1.0\" encoding=\"UTF-8\" standalone=\"yes\"?>"
  ++ "<Types xmlns=\"http://schemas.openxmlformats.org/package/2006/content-types\">"
  ++ "<Default Extension=\"rels\" ContentType=\"application/vnd.openxmlformats-package.relationships+xml\"/>"
  ++ "<Default Extension=\"xml\" ContentType=\"application/xml\"/>"
  ++ "<Override PartName=\"/xl/workbook.xml\" "
  ++ "ContentType=\"application/vnd.openxmlformats-officedocument.spreadsheetml.sheet.main+xml\"/>"
  ++ "<Override PartName=\"/xl/worksheets/sheet1.xml\" "
  ++ "ContentType=\"application/vnd.openxmlformats-officedocument.spreadsheetml.worksheet+xml\"/>"
  ++ "</Types>"

/-- Translation of `build_xlsx_bytes` up to the zip container: the five
`zf.writestr(name, content)` calls in source order.  The byte-level zip
framing (local headers, DEFLATE, central directory) is not modelled; the
archive's named parts and their contents are. -/
def build_xlsx_parts (items : List Item) : List (String × String) :=
  [("[Content_Types].xml", content_types_xml),
   ("_rels/.rels", rels_xml),
   ("xl/workbook.xml", workbook_xml),
   ("xl/_rels/workbook.xml.rels", workbook_rels_xml),
   ("xl/worksheets/sheet1.xml", sheet_xml items)]

/-- Tag-removal scan of `re.sub(r"<[^>]+>", "", text)`: from each `<`,
a maximal run of at least one non-`>` character followed by `>` is
removed; a lone `<>` or an unterminated `<...` is kept.  The first
argument is fuel, instantiated with the text length, which bounds the
number of steps since every step consumes at least one character. -/
def stripTagsGo : Nat → List Char → List Char
  | 0, cs => cs
  | _, [] => []
  | fuel + 1, c :: rest =>
    if c = '<' then
      match rest.dropWhile (fun x => decide (x ≠ '>')) with
      | '>' :: tail =>
        if (rest.takeWhile (fun x => decide (x ≠ '>'))).isEmpty then
          '<' :: '>' :: stripTagsGo fuel tail
        else stripTagsGo fuel tail
      | _ => c :: rest
    else c :: stripTagsGo fuel rest

/-- Unescaping scan modelling `html.unescape` on the entity classes the
site emits (the five XML entities and `&#39;`).  The claims' guarantees
are enforced downstream of unescaping and do not depend on the full
entity table. -/
def unescGo : Nat → List Char → List Char
  | 0, cs => cs
  | _, [] => []
  | fuel + 1, c :: rest =>
    if c = '&' then
      if listStarts "amp;".data rest then '&' :: unescGo fuel (rest.drop 4)
      else if listStarts "lt;".data rest then '<' :: unescGo fuel (rest.drop 3)
      else if listStarts "gt;".data rest then '>' :: unescGo fuel (rest.drop 3)
      else if listStarts "quot;".data rest then '"' :: unescGo fuel (rest.drop 5)
      else if listStarts "apos;".data rest then '\'' :: unescGo fuel (rest.drop 5)
      else if listStarts "#39;".data rest then '\'' :: unescGo fuel (rest.drop 4)
      else c :: unescGo fuel rest
    else c :: unescGo fuel rest

/-- Python `html.unescape` (modelled subset). -/
def htmlUnescape (s : String) : String := String.mk (unescGo s.data.length s.data)

/-- Translation of `clean_html_text`: remove tags, unescape, strip. -/
def clean_html_text (text : String) : String :=
  pyStrip (htmlUnescape (String.mk (stripTagsGo text.data.length text.data)))

/-- One hit of the title-anchor regex of `parse_results_from_html`: the
`link` and `title` capture groups and the block window
`html[match.start() : next title-wrapper or start+6000]`. -/
structure RawMatch where
  link : String
  title : String
  block : String
deriving DecidableEq, Repr

/-- Block-level field extractors (`extract_price_from_block` and
friends).  The claim quantifies over HTML inputs and none of its
guarantees depend on these regex helpers, so they are parameters of the
embedding. -/
structure BlockExtractors where
  price : String → Option String
  image : String → Option String
  discount : String → Option Int
  condition : String → Option String

/-- Loop body of `parse_results_from_html` over the regex hits: unescape
the link, drop the fragment, skip tracking links and empty titles,
append with position `len(results) + 1`, stop once the limit is
reached (checked after appending). -/
def parse_results_go (ex : BlockExtractors) (limit : Int) :
    List RawMatch → List Item → List Item
  | [], acc => acc
  | m :: rest, acc =>
    let raw_link := htmlUnescape m.link
    let link := String.mk (raw_link.data.takeWhile (fun c => decide (c ≠ '#')))
    if strContains link "mclicks" || strContains link "mclics" then
      parse_results_go ex limit rest acc
    else
      let title := clean_html_text m.title
      if title = "" then parse_results_go ex limit rest acc
      else
        let acc' := acc ++
          [⟨title, ex.price m.block, link, ex.image m.block,
            ex.discount m.block, ex.condition m.block, acc.length + 1⟩]
        if (acc'.length : Int) ≥ limit then acc'
        else parse_results_go ex limit rest acc'

/-- Translation of `parse_results_from_html`, with the regex scan
abstracted into the list of its hits (every HTML document determines
one such list). -/
def parse_results_from_html (ex : BlockExtractors) (limit : Int)
    (hits : List RawMatch) : List Item :=
  parse_results_go ex limit hits []

/-- Guarantees claimed for every extracted item: non-empty title,
fragment-free link, no click-tracking marker in the link. -/
def goodItem (it : Item) : Bool :=
  !(it.title = "") && !(decide ('#' ∈ it.link.data)) &&
    !(strContains it.link "mclicks") && !(strContains it.link "mclics")

/-- Python `s.split(sep)` for a one-character separator: accumulator is
the current field, reversed. -/
def splitChGo (sep : Char) : List Char → List Char → List (List Char)
  | cur, [] => [cur.reverse]
  | cur, c :: rest =>
    if c = sep then cur.reverse :: splitChGo sep [] rest
    else splitChGo sep (c :: cur) rest

/-- Python `s.split(";")`. -/
def pySplitSemi (s : String) : List String :=
  (splitChGo ';' [] s.data).map String.mk

/-- Python `int(s)` on optionally signed decimal strings (surrounding
whitespace stripped; underscore grouping not modelled, which no
challenge cookie uses). -/
def pyParseInt (s : String) : Option Int :=
  match (pyStrip s).data with
  | '-' :: ds =>
    if ds ≠ [] ∧ ds.all Char.isDigit then some (-(digitsToNat ds : Int)) else none
  | '+' :: ds =>
    if ds ≠ [] ∧ ds.all Char.isDigit then some (digitsToNat ds : Int) else none
  | ds =>
    if ds ≠ [] ∧ ds.all Char.isDigit then some (digitsToNat ds : Int) else none

/-! SHA-256 (FIPS 180-4), over `Nat` with explicit reduction mod `2^32`. -/

/-- Reduction to a 32-bit word. -/
def w32 (n : Nat) : Nat := n % 4294967296

/-- Right rotation of a 32-bit word. -/
def rotr (x n : Nat) : Nat := w32 (x / 2 ^ n + x % 2 ^ n * 2 ^ (32 - n))

/-- Choose function. -/
def shaCh (x y z : Nat) : Nat := (x &&& y) ^^^ ((x ^^^ 4294967295) &&& z)

/-- Majority function. -/
def shaMaj (x y z : Nat) : Nat := (x &&& y) ^^^ (x &&& z) ^^^ (y &&& z)

/-- Upper-case sigma 0. -/
def bSig0 (x : Nat) : Nat := rotr x 2 ^^^ rotr x 13 ^^^ rotr x 22

/-- Upper-case sigma 1. -/
def bSig1 (x : Nat) : Nat := rotr x 6 ^^^ rotr x 11 ^^^ rotr x 25

/-- Lower-case sigma 0. -/
def sSig0 (x : Nat) : Nat := rotr x 7 ^^^ rotr x 18 ^^^ x / 2 ^ 3

/-- Lower-case sigma 1. -/
def sSig1 (x : Nat) : Nat := rotr x 17 ^^^ rotr x 19 ^^^ x / 2 ^ 10

/-- Round constants. -/
def shaK : List Nat :=
  [1116352408, 1899447441, 3049323471, 3921009573, 961987163, 1508970993,
   2453635748, 2870763221, 3624381080, 310598401, 607225278, 1426881987,
   1925078388, 2162078206, 2614888103, 3248222580, 3835390401, 4022224774,
   264347078, 604807628, 770255983, 1249150122, 1555081692, 1996064986,
   2554220882, 2821834349, 2952996808, 3210313671, 3336571891, 3584528711,
   113926993, 338241895, 666307205, 773529912, 1294757372, 1396182291,
   1695183700, 1986661051, 2177026350, 2456956037, 2730485921, 2820302411,
   3259730800, 3345764771, 3516065817, 3600352804, 4094571909, 275423344,
   430227734, 506948616, 659060556, 883997877, 958139571, 1322822218,
   1537002063, 1747873779, 1955562222, 2024104815, 2227730452, 2361852424,
   2428436474, 2756734187, 3204031479, 3329325298]

/-- Working state a..h. -/
structure Sha8 where
  a : Nat
  b : Nat
  c : Nat
  d : Nat
  e : Nat
  f : Nat
  g : Nat
  h : Nat
deriving DecidableEq, Repr

/-- Initial hash value. -/
def shaH0 : Sha8 :=
  ⟨1779033703, 3144134277, 1013904242, 2773480762,
   1359893119, 2600822924, 528734635, 1541459225⟩

/-- Message-schedule extension, keeping the schedule reversed (most
recent word first); runs 48 times from the 16 block words. -/
def extendW : Nat → List Nat → List Nat
  | 0, rw => rw
  | k + 1, rw =>
    extendW k
      (w32 (sSig1 (rw.getD 1 0) + rw.getD 6 0 + sSig0 (rw.getD 14 0) + rw.getD 15 0)
        :: rw)

/-- One compression round. -/
def shaRound (s : Sha8) (k w : Nat) : Sha8 :=
  let t1 := w32 (s.h + bSig1 s.e + shaCh s.e s.f s.g + k + w)
  let t2 := w32 (bSig0 s.a + shaMaj s.a s.b s.c)
  ⟨w32 (t1 + t2), s.a, s.b, s.c, w32 (s.d + t1), s.e, s.f, s.g⟩

/-- Word-wise sum of states mod 2^32. -/
def addState (x y : Sha8) : Sha8 :=
  ⟨w32 (x.a + y.a), w32 (x.b + y.b), w32 (x.c + y.c), w32 (x.d + y.d),
   w32 (x.e + y.e), w32 (x.f + y.f), w32 (x.g + y.g), w32 (x.h + y.h)⟩

/-- Big-endian bytes of the 64-bit message length. -/
def be8 (n : Nat) : List Nat :=
  [n / 2 ^ 56 % 256, n / 2 ^ 48 % 256, n / 2 ^ 40 % 256, n / 2 ^ 32 % 256,
   n / 2 ^ 24 % 256, n / 2 ^ 16 % 256, n / 2 ^ 8 % 256, n % 256]

/-- SHA-256 padding: a 0x80 byte, zeros to 56 mod 64, then the bit
length. -/
def padMsg (msg : List Nat) : List Nat :=
  msg ++ [0x80] ++ List.replicate ((119 - msg.length % 64) % 64) 0
    ++ be8 (8 * msg.length)

/-- Big-endian grouping of bytes into 32-bit words. -/
def bytesToWords : List Nat → List Nat
  | b0 :: b1 :: b2 :: b3 :: rest =>
    (((b0 * 256 + b1) * 256 + b2) * 256 + b3) :: bytesToWords rest
  | _ => []

/-- Process `blocks` 16-word blocks. -/
def processBlocks : Nat → List Nat → Sha8 → Sha8
  | 0, _, st => st
  | k + 1, ws, st =>
    let w64 := (extendW 48 (ws.take 16).reverse).reverse
    let st' := addState st
      (List.foldl (fun s (kw : Nat × Nat) => shaRound s kw.1 kw.2) st (shaK.zip w64))
    processBlocks k (ws.drop 16) st'

/-- Lower-case hex digit. -/
def hexDigit (n : Nat) : Char :=
  if n < 10 then Char.ofNat (48 + n) else Char.ofNat (87 + n)

/-- Eight lower-case hex digits of a 32-bit word. -/
def hex32 (n : Nat) : String :=
  String.mk
    [hexDigit (n / 2 ^ 28 % 16), hexDigit (n / 2 ^ 24 % 16),
     hexDigit (n / 2 ^ 20 % 16), hexDigit (n / 2 ^ 16 % 16),
     hexDigit (n / 2 ^ 12 % 16), hexDigit (n / 2 ^ 8 % 16),
     hexDigit (n / 2 ^ 4 % 16), hexDigit (n % 16)]

/-- SHA-256 hex digest of a byte sequence. -/
def sha256hexOfBytes (msg : List Nat) : String :=
  let ws := bytesToWords (padMsg msg)
  let st := processBlocks (ws.length / 16) ws shaH0
  hex32 st.a ++ hex32 st.b ++ hex32 st.c ++ hex32 st.d
    ++ hex32 st.e ++ hex32 st.f ++ hex32 st.g ++ hex32 st.h

/-- UTF-8 encoding of one character, as byte values. -/
def utf8EncodeCharNat (c : Char) : List Nat :=
  let n := c.toNat
  if n < 0x80 then [n]
  else if n < 0x800 then [0xC0 + n / 64, 0x80 + n % 64]
  else if n < 0x10000 then
    [0xE0 + n / 4096, 0x80 + n / 64 % 64, 0x80 + n % 64]
  else
    [0xF0 + n / 262144, 0x80 + n / 4096 % 64, 0x80 + n / 64 % 64, 0x80 + n % 64]

/-- UTF-8 bytes of a string (`s.encode("utf-8")`). -/
def utf8Bytes (s : String) : List Nat := s.data.flatMap utf8EncodeCharNat

/-- Python `hashlib.sha256(s.encode("utf-8")).hexdigest()`. -/
def sha256hex (s : String) : String := sha256hexOfBytes (utf8Bytes s)

/-- Upper-case hex digit, as `urllib.parse.quote` emits. -/
def hexDigitUpper (n : Nat) : Char :=
  if n < 10 then Char.ofNat (48 + n) else Char.ofNat (55 + n)

/-- Percent-encoding of one byte under `quote(..., safe="")`: ASCII
letters, digits and `_.-~` pass through, everything else becomes
`%XX`. -/
def quoteByte (b : Nat) : String :=
  if (65 ≤ b ∧ b ≤ 90) ∨ (97 ≤ b ∧ b ≤ 122) ∨ (48 ≤ b ∧ b ≤ 57)
      ∨ b = 95 ∨ b = 46 ∨ b = 45 ∨ b = 126 then
    String.mk [Char.ofNat b]
  else
    String.mk ['%', hexDigitUpper (b / 16), hexDigitUpper (b % 16)]

/-- Python `urllib.parse.quote(s, safe="")`. -/
def pyQuote (s : String) : String :=
  String.join ((utf8Bytes s).map quoteByte)

/-- Nonce search bound of `_solve_bm_challenge`. -/
def BM_NONCE_BOUND : Nat := 2000000

/-- Does `sha256(token + str(nonce)).hexdigest()` start with
`"0" * difficulty`?  (Python `"0" * d` is empty for `d <= 0`.) -/
def bmPrefixOk (token : String) (difficulty : Int) (nonce : Nat) : Bool :=
  listStarts (List.replicate difficulty.toNat '0')
    (sha256hex (token ++ Nat.repr nonce)).data

/-- Linear nonce search of the solver's `while nonce < 2_000_000` loop,
with explicit fuel. -/
def searchNonce (token : String) (difficulty : Int) : Nat → Nat → Option Nat
  | _, 0 => none
  | n, fuel + 1 =>
    if bmPrefixOk token difficulty n then some n
    else searchNonce token difficulty (n + 1) fuel

/-- Translation of `_solve_bm_challenge` from the percent-decoded
`_bmstate` cookie value onward: split on `;` into token and decimal
difficulty, search nonces `0..2_000_000`, and on success report the
nonce together with the value `quote(f"{token};{nonce}", safe="")`
injected into the `_bmc` cookie (jar plumbing is not modelled; a `none`
result is the function's `return False`). -/
def solve_bm_challenge (decoded : String) : Option (Nat × String) :=
  match pySplitSemi decoded with
  | token :: diffStr :: _ =>
    match pyParseInt diffStr with
    | none => none
    | some difficulty =>
      match searchNonce token difficulty 0 BM_NONCE_BOUND with
      | none => none
      | some nonce => some (nonce, pyQuote (token ++ (";" ++ Nat.repr nonce)))
  | _ => none

/-- Translation of `DEFAULT_PAGE_SIZE`. -/
def DEFAULT_PAGE_SIZE : Nat := 48

/-- Translation of `MAX_EMPTY_PAGES`. -/
def MAX_EMPTY_PAGES : Nat := 5

/-- Content of one fetched page as the crawl loop consumes it: the
`looks_like_results_page` test, the items of
`parse_results_from_html(html, limit=200)`, and the value of
`extract_next_page_url(html, current_url)`. -/
structure Page where
  looksResults : Bool
  items : List Item
  next : Option String

/-- Outcome of fetching one URL through the 3-attempt retry loop, which
collapses for a deterministic page source: a page, a 404 (first-class
end of crawl), or a persistent non-404 HTTP error (re-raised). -/
inductive Fetch where
  | ok (p : Page)
  | notFound
  | httpErr

/-- A deterministic page source: the primary listing URL at an offset,
the category-scoped fallback URL at an offset (`none` models the
fallback fetch raising `HTTPError`, which the source swallows), and
continuation-URL fetches.  Challenge handling happens inside
`fetch_page_with_challenge` before a page is produced and is abstracted
into these outcomes. -/
structure Env where
  atOffset : Nat → Fetch
  atFallback : Nat → Option Page
  atCont : String → Fetch

/-- Arguments of `collect_results` that drive the loop. -/
structure CrawlCfg where
  fetchAll : Bool
  limit : Int
  maxPages : Int
  searchUrl : Option String

/-- Mutable state of the `collect_results` loop.  `seen` is the
`seen_links` set, kept as a duplicate-free list in insertion order. -/
structure CrawlState where
  currentStart : Nat
  seen : List String
  collected : List Item
  pageCount : Nat
  emptyStreak : Nat
  shellStreak : Nat
  nextUrl : Option String

/-- Start state: `next_url = search_url.strip() if search_url else None`.
A whitespace-only `search_url` strips to the empty string, which is
falsy at every use, so it is normalised to `none` here. -/
def initState (cfg : CrawlCfg) : CrawlState :=
  { currentStart := 1, seen := [], collected := [], pageCount := 0,
    emptyStreak := 0, shellStreak := 0,
    nextUrl :=
      match cfg.searchUrl with
      | none => none
      | some u => if u = "" then none
                  else if pyStrip u = "" then none else some (pyStrip u) }

/-- Result of one loop iteration. -/
inductive StepRes where
  | next (s : CrawlState)
  | stop (s : CrawlState)
  | early (items : List Item) (s : CrawlState)
  | fatal (s : CrawlState)
  | raiseHttp (s : CrawlState)

/-- State carried by a step result. -/
def stepState : StepRes → CrawlState
  | .next s => s | .stop s => s | .early _ s => s
  | .fatal s => s | .raiseHttp s => s

/-- Python falsiness of the `next_url` value (`None` or `""`). -/
def falsyOpt : Option String → Bool
  | none => true
  | some u => u = ""

/-- Inner `for item in page_items` loop: skip links already seen,
append with position `len(collected) + 1`, and in non-fetch-all mode
return as soon as the limit is reached (checked after appending).
Returns the seen list, the collected list, the `new_items` count and
the early-return flag. -/
def addItems (fetchAll : Bool) (limit : Int) :
    List Item → List String → List Item → Nat →
      List String × List Item × Nat × Bool
  | [], seen, collected, newItems => (seen, collected, newItems, false)
  | item :: rest, seen, collected, newItems =>
    if item.link ∈ seen then addItems fetchAll limit rest seen collected newItems
    else
      let collected' := collected ++ [{ item with position := collected.length + 1 }]
      let seen' := seen ++ [item.link]
      if !fetchAll && decide ((collected'.length : Int) ≥ limit) then
        (seen', collected', newItems + 1, true)
      else addItems fetchAll limit rest seen' collected' (newItems + 1)

/-- Shared page-advance tail of the loop (`mercadolibre.py` lines
485-490, 513-518 and 522-527): under continuation addressing follow the
extracted next link and stop when it is falsy; under offset addressing
add the page size to the offset. -/
def advance (p : Page) (s : CrawlState) : StepRes :=
  match s.nextUrl with
  | some _ =>
    let s' := { s with nextUrl := p.next }
    if falsyOpt s'.nextUrl then .stop s' else .next s'
  | none => .next { s with currentStart := s.currentStart + DEFAULT_PAGE_SIZE }

/-- One iteration of the `collect_results` loop body, translated from
`mercadolibre.py` lines 407-527.  The category-scoped fallback fetch is
attempted exactly when no continuation URL is in play; the fallback URL
always differs from the primary one (its slug is prefixed with
`_CustId_0_`), so the source's `fallback_url != current_url` guard is
always true there. -/
def crawlStep (env : Env) (cfg : CrawlCfg) (s₀ : CrawlState) : StepRes :=
  let s := { s₀ with pageCount := s₀.pageCount + 1 }
  let fetched :=
    match s.nextUrl with
    | some u => env.atCont u
    | none => env.atOffset s.currentStart
  match fetched with
  | .notFound => .stop s
  | .httpErr => .raiseHttp s
  | .ok p₀ =>
    let p :=
      if p₀.looksResults then p₀
      else
        match s.nextUrl with
        | some _ => p₀
        | none =>
          match env.atFallback s.currentStart with
          | some alt => if alt.looksResults then alt else p₀
          | none => p₀
    if !p.looksResults then
      let s := { s with shellStreak := s.shellStreak + 1 }
      if s.shellStreak ≥ 3 then .fatal s
      else
        match s.nextUrl with
        | some _ => .stop s
        | none => .next { s with currentStart := s.currentStart + DEFAULT_PAGE_SIZE }
    else
      let s := { s with shellStreak := 0 }
      if p.items = [] then
        let s := { s with emptyStreak := s.emptyStreak + 1 }
        if s.emptyStreak ≥ MAX_EMPTY_PAGES then .stop s else advance p s
      else
        let s := { s with emptyStreak := 0 }
        let res := addItems cfg.fetchAll cfg.limit p.items s.seen s.collected 0
        let s := { s with seen := res.1, collected := res.2.1 }
        if res.2.2.2 then .early s.collected s
        else if !cfg.fetchAll && decide ((s.collected.length : Int) ≥ cfg.limit) then
          .early s.collected s
        else if res.2.2.1 = 0 then
          let s := { s with emptyStreak := s.emptyStreak + 1 }
          if s.emptyStreak ≥ MAX_EMPTY_PAGES then .stop s else advance p s
        else
          let s := { s with emptyStreak := 0 }
          advance p s

/-- Final loop outcomes.  `fuelOut` is an artifact of the explicit fuel
bound, not a behavior of the source. -/
inductive CrawlOutcome where
  | finished (s : CrawlState)
  | early (items : List Item) (s : CrawlState)
  | fatal (s : CrawlState)
  | raiseHttp (s : CrawlState)
  | fuelOut (s : CrawlState)

/-- State carried by an outcome. -/
def stateOf : CrawlOutcome → CrawlState
  | .finished s => s | .early _ s => s | .fatal s => s
  | .raiseHttp s => s | .fuelOut s => s

/-- Did the loop end normally (`break` or loop condition false)? -/
def isFinished : CrawlOutcome → Bool
  | .finished _ => true
  | _ => false

/-- Did the loop raise the sustained-block `RuntimeError`? -/
def isFatal : CrawlOutcome → Bool
  | .fatal _ => true
  | _ => false

/-- The `while unlimited_pages or page_count < max_pages` loop with
explicit fuel. -/
def crawlRun (env : Env) (cfg : CrawlCfg) : Nat → CrawlState → CrawlOutcome
  | 0, s => .fuelOut s
  | fuel + 1, s =>
    if cfg.maxPages ≤ 0 ∨ (s.pageCount : Int) < cfg.maxPages then
      match crawlStep env cfg s with
      | .next s' => crawlRun env cfg fuel s'
      | .stop s' => .finished s'
      | .early items s' => .early items s'
      | .fatal s' => .fatal s'
      | .raiseHttp s' => .raiseHttp s'
    else .finished s

/-- Python `l[:k]`, including the negative-stop convention. -/
def pySliceTake (l : List Item) (k : Int) : List Item :=
  if 0 ≤ k then l.take k.toNat else l.take ((l.length : Int) + k).toNat

/-- Items `collect_results` returns: the sliced collection after a
normal loop exit, the unsliced collection on the in-loop `return`, and
nothing when an exception propagates. -/
def crawlItems (cfg : CrawlCfg) : CrawlOutcome → Option (List Item)
  | .finished s =>
    some (if cfg.fetchAll then s.collected else pySliceTake s.collected cfg.limit)
  | .early items _ => some items
  | _ => none

/-- URL or offset actually fetched by a step (before any fallback). -/
def fetchedOf (env : Env) (s : CrawlState) : Fetch :=
  match s.nextUrl with
  | some u => env.atCont u
  | none => env.atOffset s.currentStart

/-! ### Theorems -/

/-- Heads of string literals distinguish appended tokens. -/
lemma append_ne_of_head {p q : String} {cp cq : Char} {tp tq : List Char}
    (hp : p.data = cp :: tp) (hq : q.data = cq :: tq) (hne : cp ≠ cq) (x : String) :
    p ++ x ≠ q := by
  intro h
  have hd := congrArg String.data h
  rw [String.data_append, hp, hq, List.cons_append] at hd
  exact hne (List.head_eq_of_cons_eq hd)

lemma ite_lt_eq_min (a b : Int) : (if b < a then b else a) = min a b := by omega

lemma ite_lt_eq_max (a b : Int) : (if b < a then a else b) = max a b := by omega

lemma clamp_comm (md : Int) : max 1 (min md 100) = min 100 (max 1 md) := by omega

set_option maxHeartbeats 1600000 in
lemma build_eq_specTokens (mp xp md : Int) (sp xi : Bool) (cf : String) :
    build_filter_tokens mp xp md sp xi cf = specFilterTokenList mp xp md sp xi cf := by
  unfold build_filter_tokens specFilterTokenList specPriceToken conditionTokenByFilter
  simp only [ite_lt_eq_min, ite_lt_eq_max, clamp_comm]
  split_ifs <;>
    simp only [List.nil_append, List.append_nil, List.singleton_append,
      List.cons_append, List.append_assoc]

lemma specPriceToken_ne_orderId (mp xp : Int) : specPriceToken mp xp ≠ "OrderId_PRICE" := by
  unfold specPriceToken
  exact append_ne_of_head rfl rfl (by decide) _

lemma specPriceToken_ne_shipping (mp xp : Int) :
    specPriceToken mp xp ≠ "SHIPPING*ORIGIN_10215068" := by
  unfold specPriceToken
  exact append_ne_of_head rfl rfl (by decide) _

lemma discountToken_ne_orderId (x : String) : "Discount_" ++ x ≠ "OrderId_PRICE" :=
  append_ne_of_head rfl rfl (by decide) _

lemma discountToken_ne_shipping (x : String) :
    "Discount_" ++ x ≠ "SHIPPING*ORIGIN_10215068" :=
  append_ne_of_head rfl rfl (by decide) _

/-- C5: the filter-token list is exactly, in the fixed order, the sort
token iff sorting is requested, a price-range token only when a positive
bound is set (bounds ordered), a discount token only for positive minimum
discount (clamped into 1-100), a condition token only for the known
non-"any" filters, the no-index token always, and the local-shipping
token unless international results are included. -/
theorem build_filter_tokens_matches_spec (mp xp md : Int) (sp xi : Bool) (cf : String) :
    build_filter_tokens mp xp md sp xi cf = specFilterTokenList mp xp md sp xi cf
    ∧ "NoIndex_True" ∈ build_filter_tokens mp xp md sp xi cf
    ∧ List.count "OrderId_PRICE" (build_filter_tokens mp xp md sp xi cf)
        = (if sp then 1 else 0)
    ∧ (LOCAL_SHIPPING_FILTER ∈ build_filter_tokens mp xp md sp xi cf ↔ xi = true)
    ∧ (conditionTokenByFilter cf ≠ none → cf ≠ "any") := by
  have he := build_eq_specTokens mp xp md sp xi cf
  refine ⟨he, ?_, ?_, ?_, ?_⟩
  · rw [he]; unfold specFilterTokenList; simp
  · rw [he]; unfold specFilterTokenList LOCAL_SHIPPING_FILTER
    simp only [List.count_append]
    split_ifs <;>
      simp [List.count_singleton, List.count_nil,
        specPriceToken_ne_orderId, discountToken_ne_orderId]
  · rw [he]; unfold specFilterTokenList LOCAL_SHIPPING_FILTER
    simp only [List.mem_append]
    split_ifs <;>
      simp_all [Ne.symm (specPriceToken_ne_shipping mp xp),
        Ne.symm (discountToken_ne_shipping _)]
  · intro h
    unfold conditionTokenByFilter at h
    intro hcf
    rw [hcf] at h
    simp at h

lemma setPositions_map_stripPos (n : Nat) (l : List Item) :
    (setPositions n l).map stripPos = l.map stripPos := by
  induction l generalizing n with
  | nil => rfl
  | cons x xs ih => simp [setPositions, stripPos, ih]

lemma setPositions_map_price (n : Nat) (l : List Item) :
    (setPositions n l).map (fun it => parse_price_value it.price)
      = l.map (fun it => parse_price_value it.price) := by
  induction l generalizing n with
  | nil => rfl
  | cons x xs ih => simp [setPositions, ih]

lemma setPositions_map_position (n : Nat) (l : List Item) :
    (setPositions n l).map (·.position) = List.range' n l.length := by
  induction l generalizing n with
  | nil => rfl
  | cons x xs ih => simp [setPositions, ih, List.range'_succ]

lemma itemLe_optPriceLe {a b : Item} (h : itemLe a b) :
    optPriceLe (parse_price_value a.price) (parse_price_value b.price) := by
  unfold itemLe itemLeB price_key at h
  rcases ha : parse_price_value a.price with _ | x <;>
    rcases hb : parse_price_value b.price with _ | y <;>
      rw [ha, hb] at h <;> simp_all [optPriceLe]

/-- C6: sorting by price is a permutation (up to position renumbering)
placing priced items before unpriced ones in nondecreasing parsed-price
order, with positions renumbered densely from 1; in particular the
spec's three-item example sorts to prices [100, 500, none] with
positions [1, 2, 3]. -/
theorem sort_items_by_price_spec (items : List Item) :
    ((sort_items_by_price items).map stripPos).Perm (items.map stripPos)
    ∧ ((sort_items_by_price items).map
        (fun it => parse_price_value it.price)).Pairwise optPriceLe
    ∧ (sort_items_by_price items).map (·.position) = List.range' 1 items.length
    ∧ (sort_items_by_price
        [⟨"a", some "$ 500", "", none, none, none, 9⟩,
         ⟨"b", none, "", none, none, none, 9⟩,
         ⟨"c", some "$ 100", "", none, none, none, 9⟩]).map (·.price)
        = [some "$ 100", some "$ 500", none]
    ∧ (sort_items_by_price
        [⟨"a", some "$ 500", "", none, none, none, 9⟩,
         ⟨"b", none, "", none, none, none, 9⟩,
         ⟨"c", some "$ 100", "", none, none, none, 9⟩]).map (·.position)
        = [1, 2, 3] := by
  refine ⟨?_, ?_, ?_, by decide, by decide⟩
  · unfold sort_items_by_price
    rw [setPositions_map_stripPos]
    exact (List.perm_insertionSort itemLe items).map stripPos
  · unfold sort_items_by_price
    rw [setPositions_map_price, List.pairwise_map]
    exact (List.sorted_insertionSort itemLe items).imp itemLe_optPriceLe
  · unfold sort_items_by_price
    rw [setPositions_map_position,
      (List.perm_insertionSort itemLe items).length_eq]

/-- C7 (code bug): the `apply_filters` in `src/mercadolibre.py` has no
exclude-substring (or include-word-list) stage, although `src/server.py`
invokes it with `include_words`/`exclude_words` arguments (a `TypeError`
at runtime) and the spec requires that stage: the code keeps an item
whose title matches an exclude word that the spec-modelled filter
removes. -/
theorem apply_filters_lacks_exclude_stage :
    apply_filters [⟨"funda pro max", some "$ 100", "l", none, some 20, none, 1⟩]
        0 0 "" 0
      = [⟨"funda pro max", some "$ 100", "l", none, some 20, none, 1⟩]
    ∧ apply_filters_spec [⟨"funda pro max", some "$ 100", "l", none, some 20, none, 1⟩]
        0 0 [] ["pro"] 0
      = [] := by
  constructor <;> decide

lemma sheetRowsXml_length (r : Nat) (rows : List (List CellVal)) :
    (sheetRowsXml r rows).length = rows.length := by
  induction rows generalizing r with
  | nil => rfl
  | cons x xs ih => simp [sheetRowsXml, ih]

lemma itemRowsFrom_length (i : Nat) (l : List Item) :
    (itemRowsFrom i l).length = l.length := by
  induction l generalizing i with
  | nil => rfl
  | cons x xs ih => simp [itemRowsFrom, ih]

/-- C9: the encoder emits exactly the five named parts, in order and
pairwise distinct, and the worksheet holds one header row plus one row
per item; in particular three items give five parts and four rows. -/
theorem build_xlsx_parts_spec (items : List Item) :
    (build_xlsx_parts items).map Prod.fst
      = ["[Content_Types].xml", "_rels/.rels", "xl/workbook.xml",
         "xl/_rels/workbook.xml.rels", "xl/worksheets/sheet1.xml"]
    ∧ ((build_xlsx_parts items).map Prod.fst).Nodup
    ∧ (build_xlsx_parts items).length = 5
    ∧ (xlsxSheetRows items).length = items.length + 1
    ∧ (build_xlsx_parts
        [⟨"a", some "$ 1", "l1", none, none, none, 1⟩,
         ⟨"b", none, "l2", none, some 10, some "new", 2⟩,
         ⟨"c", some "$ 3", "l3", none, none, none, 3⟩]).length = 5
    ∧ (xlsxSheetRows
        [⟨"a", some "$ 1", "l1", none, none, none, 1⟩,
         ⟨"b", none, "l2", none, some 10, some "new", 2⟩,
         ⟨"c", some "$ 3", "l3", none, none, none, 3⟩]).length = 4 := by
  have hnames : (build_xlsx_parts items).map Prod.fst
      = ["[Content_Types].xml", "_rels/.rels", "xl/workbook.xml",
         "xl/_rels/workbook.xml.rels", "xl/worksheets/sheet1.xml"] := rfl
  refine ⟨rfl, ?_, rfl, ?_, rfl, ?_⟩
  · rw [hnames]; decide
  · unfold xlsxSheetRows xlsxRows
    rw [sheetRowsXml_length]
    simp [itemRowsFrom_length]
  · unfold xlsxSheetRows xlsxRows
    rw [sheetRowsXml_length]
    simp [itemRowsFrom_length]

lemma itemRowsFrom_head (i : Nat) (l : List Item) :
    (itemRowsFrom i l).map List.head?
      = (List.range' i l.length).map (fun n => some (CellVal.num n)) := by
  induction l generalizing i with
  | nil => rfl
  | cons x xs ih => simp [itemRowsFrom, itemCells, List.range'_succ, ih]

/-- C10: each exported item row's first (position) cell carries the
item's 1-based index in the encoded list, not the item's stored
`position` field, so the exported position column is the dense sequence
1..N even for items carrying non-dense positions (here all 7). -/
theorem xlsx_position_column_is_dense_index (items : List Item) :
    ((xlsxRows items).drop 1).map List.head?
      = (List.range' 1 items.length).map (fun n => some (CellVal.num n))
    ∧ ((xlsxRows
        [⟨"a", none, "l1", none, none, none, 7⟩,
         ⟨"b", none, "l2", none, none, none, 7⟩,
         ⟨"c", none, "l3", none, none, none, 7⟩]).drop 1).map List.head?
      = [some (CellVal.num 1), some (CellVal.num 2), some (CellVal.num 3)]
    ∧ ([⟨"a", none, "l1", none, none, none, 7⟩,
        ⟨"b", none, "l2", none, none, none, 7⟩,
        ⟨"c", none, "l3", none, none, none, 7⟩] : List Item).map (·.position)
      = [7, 7, 7] := by
  refine ⟨?_, by decide, by decide⟩
  unfold xlsxRows
  simp [itemRowsFrom_head]

lemma no_hash_in_stripped (raw : String) :
    '#' ∉ (String.mk (raw.data.takeWhile (fun c => decide (c ≠ '#')))).data := by
  intro h
  have := List.mem_takeWhile_imp h
  simp at this

lemma parse_go_good (ex : BlockExtractors) (limit : Int) (ms : List RawMatch) :
    ∀ acc, (∀ it ∈ acc, goodItem it = true) →
      ∀ it ∈ parse_results_go ex limit ms acc, goodItem it = true := by
  induction ms with
  | nil => intro acc hacc; simpa [parse_results_go] using hacc
  | cons m rest ih =>
    intro acc hacc
    unfold parse_results_go
    dsimp only
    split_ifs with h1 h2 h3
    · exact ih acc hacc
    · exact ih acc hacc
    · intro it hit
      rcases List.mem_append.mp hit with hmem | hmem
      · exact hacc it hmem
      · rw [List.mem_singleton.mp hmem]
        simp only [goodItem, Bool.and_eq_true, Bool.not_eq_true',
          decide_eq_false_iff_not, Bool.not_eq_eq_eq_not, Bool.not_true,
          decide_eq_true_eq]
        refine ⟨⟨⟨by simpa using h2, no_hash_in_stripped _⟩, ?_⟩, ?_⟩
        · rcases Bool.or_eq_false_iff.mp (Bool.eq_false_iff.mpr h1) with ⟨ha, _⟩
          exact ha
        · rcases Bool.or_eq_false_iff.mp (Bool.eq_false_iff.mpr h1) with ⟨_, hb⟩
          exact hb
    · apply ih
      intro it hit
      rcases List.mem_append.mp hit with hmem | hmem
      · exact hacc it hmem
      · rw [List.mem_singleton.mp hmem]
        simp only [goodItem, Bool.and_eq_true, Bool.not_eq_true',
          decide_eq_false_iff_not, Bool.not_eq_eq_eq_not, Bool.not_true,
          decide_eq_true_eq]
        refine ⟨⟨⟨by simpa using h2, no_hash_in_stripped _⟩, ?_⟩, ?_⟩
        · rcases Bool.or_eq_false_iff.mp (Bool.eq_false_iff.mpr h1) with ⟨ha, _⟩
          exact ha
        · rcases Bool.or_eq_false_iff.mp (Bool.eq_false_iff.mpr h1) with ⟨_, hb⟩
          exact hb

lemma parse_go_len (ex : BlockExtractors) (limit : Int) (ms : List RawMatch) :
    ∀ acc : List Item, (acc.length : Int) < limit →
      ((parse_results_go ex limit ms acc).length : Int) ≤ limit := by
  induction ms with
  | nil => intro acc h; simp [parse_results_go]; omega
  | cons m rest ih =>
    intro acc h
    unfold parse_results_go
    dsimp only
    split_ifs with h1 h2 h3
    · exact ih acc h
    · exact ih acc h
    · simp only [List.length_append, List.length_singleton]
      push_cast
      omega
    · apply ih
      simp only [List.length_append, List.length_singleton] at h3 ⊢
      push_cast at h3 ⊢
      omega

/-- C8 (amended): every extracted item has a non-empty title and a
fragment-free link containing no click-tracking marker, and for a limit
of at least 1 the output length is at most the limit (a non-positive
limit still lets the first kept item through, because the limit is
checked after appending). -/
theorem parse_results_guarantees (ex : BlockExtractors) (limit : Int)
    (hits : List RawMatch) :
    (∀ it ∈ parse_results_from_html ex limit hits, goodItem it = true)
    ∧ (1 ≤ limit → ((parse_results_from_html ex limit hits).length : Int) ≤ limit) := by
  constructor
  · exact parse_go_good ex limit hits [] (by simp)
  · intro h
    have h0 : ((([] : List Item).length : Int)) < limit := by simp; omega
    exact parse_go_len ex limit hits [] h0

/-- C8 counterexample: with limit 0 and one valid hit the extractor
returns one item, so the claimed "length at most the caller-supplied
limit" fails for limit 0 (the limit check runs only after appending). -/
theorem parse_results_limit_zero_returns_one :
    (parse_results_from_html ⟨fun _ => none, fun _ => none, fun _ => none, fun _ => none⟩ 0
        [⟨"https://x.example/item", "Item A", ""⟩]).length = 1
    ∧ ¬ (((parse_results_from_html
          ⟨fun _ => none, fun _ => none, fun _ => none, fun _ => none⟩ 0
          [⟨"https://x.example/item", "Item A", ""⟩]).length : Int) ≤ 0) := by
  constructor <;> decide

/-- Witness for C8: the guarantees instantiated on one concrete hit with
limit 1. -/
theorem parse_results_guarantees_witness :
    goodItem ⟨"Item A", none, "https://x.example/item", none, none, none, 1⟩ = true
    ∧ ((parse_results_from_html
          ⟨fun _ => none, fun _ => none, fun _ => none, fun _ => none⟩ 1
          [⟨"https://x.example/item", "Item A", ""⟩]).length : Int) ≤ 1 := by
  constructor
  · exact (parse_results_guarantees
      ⟨fun _ => none, fun _ => none, fun _ => none, fun _ => none⟩ 1
      [⟨"https://x.example/item", "Item A", ""⟩]).1
      ⟨"Item A", none, "https://x.example/item", none, none, none, 1⟩ (by decide)
  · exact (parse_results_guarantees
      ⟨fun _ => none, fun _ => none, fun _ => none, fun _ => none⟩ 1
      [⟨"https://x.example/item", "Item A", ""⟩]).2 (by decide)

lemma searchNonce_some (token : String) (d : Int) :
    ∀ fuel start n, searchNonce token d start fuel = some n →
      start ≤ n ∧ n < start + fuel ∧ bmPrefixOk token d n = true
        ∧ ∀ m, start ≤ m → m < n → bmPrefixOk token d m = false := by
  intro fuel
  induction fuel with
  | zero => intro start n h; simp [searchNonce] at h
  | succ k ih =>
    intro start n h
    unfold searchNonce at h
    split_ifs at h with hp
    · cases h
      exact ⟨le_refl _, by omega, hp,
        fun m hm1 hm2 => absurd (lt_of_le_of_lt hm1 hm2) (lt_irrefl _)⟩
    · obtain ⟨h1, h2, h3, h4⟩ := ih (start + 1) n h
      refine ⟨by omega, by omega, h3, fun m hm1 hm2 => ?_⟩
      rcases Nat.eq_or_lt_of_le hm1 with heq | hlt
      · rw [← heq]
        exact Bool.eq_false_iff.mpr hp
      · exact h4 m hlt hm2

lemma searchNonce_none (token : String) (d : Int) :
    ∀ fuel start, searchNonce token d start fuel = none →
      ∀ m, start ≤ m → m < start + fuel → bmPrefixOk token d m = false := by
  intro fuel
  induction fuel with
  | zero => intro start _ m hm1 hm2; omega
  | succ k ih =>
    intro start h m hm1 hm2
    unfold searchNonce at h
    split_ifs at h with hp
    rcases Nat.eq_or_lt_of_le hm1 with heq | hlt
    · rw [← heq]
      exact Bool.eq_false_iff.mpr hp
    · exact ih (start + 1) h m hlt (by omega)

/-- C2: when the decoded challenge cookie splits on `;` into a token and
a decimal difficulty, a reported solution is the least nonce below
2,000,000 whose SHA-256 hex digest of `token ++ nonce` starts with
`difficulty` zero hex characters, and the injected cookie value is the
percent-encoding of `token;nonce`; when no nonce below the bound
qualifies, the solver reports failure. -/
theorem solve_bm_challenge_spec (decoded token diffStr : String) (rest : List String)
    (d : Int) (hsplit : pySplitSemi decoded = token :: diffStr :: rest)
    (hd : pyParseInt diffStr = some d) :
    (∀ n v, solve_bm_challenge decoded = some (n, v) →
        n < 2000000
        ∧ listStarts (List.replicate d.toNat '0')
            (sha256hex (token ++ Nat.repr n)).data = true
        ∧ (∀ m, m < n →
            listStarts (List.replicate d.toNat '0')
              (sha256hex (token ++ Nat.repr m)).data = false)
        ∧ v = pyQuote (token ++ (";" ++ Nat.repr n)))
    ∧ (solve_bm_challenge decoded = none →
        ∀ n, n < 2000000 →
          listStarts (List.replicate d.toNat '0')
            (sha256hex (token ++ Nat.repr n)).data = false) := by
  constructor
  · intro n v h
    unfold solve_bm_challenge at h
    rw [hsplit] at h
    dsimp only at h
    rw [hd] at h
    dsimp only at h
    cases hs : searchNonce token d 0 BM_NONCE_BOUND with
    | none => rw [hs] at h; exact absurd h (by simp)
    | some n0 =>
      rw [hs] at h
      obtain ⟨hn, hv⟩ := Prod.mk.injEq .. ▸ Option.some.injEq .. ▸ h
      obtain ⟨_, h2, h3, h4⟩ := searchNonce_some token d BM_NONCE_BOUND 0 n0 hs
      subst hn
      refine ⟨by simpa [BM_NONCE_BOUND] using h2, ?_, ?_, hv.symm⟩
      · simpa [bmPrefixOk] using h3
      · intro m hm
        simpa [bmPrefixOk] using h4 m (Nat.zero_le m) hm
  · intro h n hn
    unfold solve_bm_challenge at h
    rw [hsplit] at h
    dsimp only at h
    rw [hd] at h
    dsimp only at h
    cases hs : searchNonce token d 0 BM_NONCE_BOUND with
    | some n0 => rw [hs] at h; exact absurd h (by simp)
    | none =>
      have := searchNonce_none token d BM_NONCE_BOUND 0 hs n (Nat.zero_le n)
        (by simpa [BM_NONCE_BOUND] using hn)
      simpa [bmPrefixOk] using this

/-- Witness for C2: the cookie value `tok;0` (difficulty 0) is solved at
nonce 0 and the injected value is `tok%3B0`. -/
theorem solve_bm_challenge_spec_witness :
    (0 : Nat) < 2000000
    ∧ listStarts (List.replicate (0 : Int).toNat '0')
        (sha256hex ("tok" ++ Nat.repr 0)).data = true
    ∧ "tok%3B0" = pyQuote ("tok" ++ (";" ++ Nat.repr 0)) := by
  have H := solve_bm_challenge_spec "tok;0" "tok" "0" [] 0 (by decide) (by decide)
  have R := H.1 0 "tok%3B0" (by decide)
  exact ⟨R.1, R.2.1, R.2.2.2⟩

lemma addItems_inv (fetchAll : Bool) (limit : Int) (items : List Item)
    (seen : List String) (col : List Item) (n : Nat)
    (h1 : seen = col.map (·.link)) (h2 : (col.map (·.link)).Nodup)
    (h3 : col.map (·.position) = List.range' 1 col.length) :
    (addItems fetchAll limit items seen col n).1
        = (addItems fetchAll limit items seen col n).2.1.map (·.link)
      ∧ ((addItems fetchAll limit items seen col n).2.1.map (·.link)).Nodup
      ∧ (addItems fetchAll limit items seen col n).2.1.map (·.position)
          = List.range' 1 (addItems fetchAll limit items seen col n).2.1.length := by
  induction items generalizing seen col n with
  | nil => exact ⟨h1, h2, h3⟩
  | cons item rest ih =>
    unfold addItems
    dsimp only
    split_ifs with hseen hlim
    · exact ih seen col n h1 h2 h3
    · constructor
      · simp [h1]
      constructor
      · rw [h1] at hseen
        simp [List.nodup_append, h2, hseen]
      · simp only [List.map_append, List.length_append, List.map_cons,
          List.map_nil, List.length_cons, List.length_nil]
        rw [h3, List.range'_concat]
        simp [Nat.add_comm]
    · apply ih
      · simp [h1]
      · rw [h1] at hseen
        simp [List.nodup_append, h2, hseen]
      · simp only [List.map_append, List.length_append, List.map_cons,
          List.map_nil, List.length_cons, List.length_nil]
        rw [h3, List.range'_concat]
        simp [Nat.add_comm]

set_option maxHeartbeats 2000000 in
lemma crawlStep_inv (env : Env) (cfg : CrawlCfg) (s : CrawlState)
    (h1 : s.seen = s.collected.map (·.link))
    (h2 : (s.collected.map (·.link)).Nodup)
    (h3 : s.collected.map (·.position) = List.range' 1 s.collected.length) :
    (stepState (crawlStep env cfg s)).seen
        = (stepState (crawlStep env cfg s)).collected.map (·.link)
      ∧ ((stepState (crawlStep env cfg s)).collected.map (·.link)).Nodup
      ∧ (stepState (crawlStep env cfg s)).collected.map (·.position)
          = List.range' 1 (stepState (crawlStep env cfg s)).collected.length := by
  unfold crawlStep advance
  dsimp only
  repeat' split
  all_goals
    first
    | exact ⟨h1, h2, h3⟩
    | exact addItems_inv cfg.fetchAll cfg.limit _ _ _ _ h1 h2 h3

lemma crawlRun_inv (env : Env) (cfg : CrawlCfg) :
    ∀ (fuel : Nat) (s : CrawlState),
      s.seen = s.collected.map (·.link) →
      (s.collected.map (·.link)).Nodup →
      s.collected.map (·.position) = List.range' 1 s.collected.length →
      (stateOf (crawlRun env cfg fuel s)).seen
          = (stateOf (crawlRun env cfg fuel s)).collected.map (·.link)
        ∧ ((stateOf (crawlRun env cfg fuel s)).collected.map (·.link)).Nodup
        ∧ (stateOf (crawlRun env cfg fuel s)).collected.map (·.position)
            = List.range' 1 (stateOf (crawlRun env cfg fuel s)).collected.length := by
  intro fuel
  induction fuel with
  | zero => intro s h1 h2 h3; exact ⟨h1, h2, h3⟩
  | succ k ih =>
    intro s h1 h2 h3
    unfold crawlRun
    split_ifs with hcond
    · have hstep := crawlStep_inv env cfg s h1 h2 h3
      cases h : crawlStep env cfg s with
      | next s' => rw [h] at hstep; exact ih s' hstep.1 hstep.2.1 hstep.2.2
      | stop s' => rw [h] at hstep; exact hstep
      | early items s' => rw [h] at hstep; exact hstep
      | fatal s' => rw [h] at hstep; exact hstep
      | raiseHttp s' => rw [h] at hstep; exact hstep
    · exact ⟨h1, h2, h3⟩

/-- C4: throughout any crawl, an item is appended only when its link is
unseen and is given position `collected length + 1`; hence the seen
list is exactly the collected links (so the set size equals the item
count), links are pairwise distinct (a link repeated across pages is
counted at most once), and positions are the dense sequence 1..N in
insertion order. -/
theorem crawl_dedup_positions (env : Env) (cfg : CrawlCfg) (fuel : Nat) :
    (stateOf (crawlRun env cfg fuel (initState cfg))).seen
        = (stateOf (crawlRun env cfg fuel (initState cfg))).collected.map (·.link)
      ∧ ((stateOf (crawlRun env cfg fuel (initState cfg))).collected.map (·.link)).Nodup
      ∧ (stateOf (crawlRun env cfg fuel (initState cfg))).collected.map (·.position)
          = List.range' 1 (stateOf (crawlRun env cfg fuel (initState cfg))).collected.length
      ∧ (stateOf (crawlRun env cfg fuel (initState cfg))).seen.length
          = (stateOf (crawlRun env cfg fuel (initState cfg))).collected.length
      ∧ ∀ l : String,
          ((stateOf (crawlRun env cfg fuel (initState cfg))).collected.map (·.link)).count l
            ≤ 1 := by
  obtain ⟨g1, g2, g3⟩ :=
    crawlRun_inv env cfg fuel (initState cfg) rfl (by simp [initState]) (by simp [initState])
  refine ⟨g1, g2, g3, ?_, fun l => List.nodup_iff_count_le_one.mp g2 l⟩
  rw [g1, List.length_map]

lemma crawlStep_empty_offset (env : Env) (cfg : CrawlCfg) (s : CrawlState) (p : Page)
    (hnext : s.nextUrl = none)
    (hp : env.atOffset s.currentStart = .ok p)
    (hlooks : p.looksResults = true) (hitems : p.items = []) :
    crawlStep env cfg s =
      if s.emptyStreak + 1 ≥ MAX_EMPTY_PAGES then
        .stop { s with
                pageCount := s.pageCount + 1, shellStreak := 0,
                emptyStreak := s.emptyStreak + 1 }
      else
        .next { s with
                pageCount := s.pageCount + 1, shellStreak := 0,
                emptyStreak := s.emptyStreak + 1,
                currentStart := s.currentStart + DEFAULT_PAGE_SIZE } := by
  unfold crawlStep advance
  simp [hnext, hp, hlooks, hitems]

lemma crawlRun_empty_offset (env : Env) (cfg : CrawlCfg)
    (hunlim : cfg.maxPages ≤ 0)
    (hpages : ∀ n, ∃ p, env.atOffset n = .ok p ∧ p.looksResults = true ∧ p.items = []) :
    ∀ (fuel k : Nat) (s : CrawlState), s.nextUrl = none → s.emptyStreak = k → k < 5 →
      5 - k ≤ fuel →
      crawlRun env cfg fuel s =
        .finished { s with
                    pageCount := s.pageCount + (5 - k),
                    currentStart := s.currentStart + DEFAULT_PAGE_SIZE * (4 - k),
                    shellStreak := 0, emptyStreak := 5 } := by
  intro fuel
  induction fuel with
  | zero => intro k s _ _ hklt hfuel; omega
  | succ m ih =>
    intro k s hnext hk hklt hfuel
    obtain ⟨p, hp, hlooks, hitems⟩ := hpages s.currentStart
    unfold crawlRun
    rw [if_pos (Or.inl hunlim),
      crawlStep_empty_offset env cfg s p hnext hp hlooks hitems]
    by_cases hck : s.emptyStreak + 1 ≥ MAX_EMPTY_PAGES
    · rw [if_pos hck]
      have hk4 : s.emptyStreak = 4 := by
        simp [MAX_EMPTY_PAGES] at hck; omega
      dsimp only
      rw [hk] at hk4
      subst hk4
      cases s
      simp_all [MAX_EMPTY_PAGES, DEFAULT_PAGE_SIZE]
    · rw [if_neg hck]
      dsimp only
      have hck' : k + 1 < 5 := by
        simp [MAX_EMPTY_PAGES] at hck; omega
      rw [ih (k + 1) _ (by simp [hnext]) (by simp [hk]) (by omega) (by omega)]
      cases s
      dsimp only at hk ⊢
      subst hk
      congr 1
      simp only [CrawlState.mk.injEq, DEFAULT_PAGE_SIZE]
      refine ⟨by omega, trivial, trivial, by omega, trivial, trivial, trivial⟩

/-- C1 counterexample: a page source that yields accepted results pages
with zero items on every step need not halt the crawl after exactly 5
such pages: under continuation addressing, an empty results page
without a next-continuation link halts the crawl after a single
page. -/
theorem crawl_contin_empty_halts_at_one :
    isFinished (crawlRun
        ⟨fun _ => .notFound, fun _ => none, fun _ => .ok ⟨true, [], none⟩⟩
        ⟨true, 0, 0, some "u"⟩ 10 (initState ⟨true, 0, 0, some "u"⟩)) = true
    ∧ (stateOf (crawlRun
        ⟨fun _ => .notFound, fun _ => none, fun _ => .ok ⟨true, [], none⟩⟩
        ⟨true, 0, 0, some "u"⟩ 10 (initState ⟨true, 0, 0, some "u"⟩))).pageCount = 1
    ∧ (stateOf (crawlRun
        ⟨fun _ => .notFound, fun _ => none, fun _ => .ok ⟨true, [], none⟩⟩
        ⟨true, 0, 0, some "u"⟩ 10 (initState ⟨true, 0, 0, some "u"⟩))).emptyStreak = 1 := by
  refine ⟨by decide, by decide, by decide⟩

/-- C1 (amended): under offset addressing with an unbounded page budget,
a page source always yielding accepted results pages with zero items
(the only way a source can contribute zero new items at every step,
since the first collected link would be new) halts the crawl after
exactly 5 consecutive empty pages — the empty-page and no-new-item
streaks share one counter and threshold — returning no items and never
looping indefinitely (any fuel of at least 5 gives the same finished
outcome). -/
theorem crawl_empty_pages_halt_at_five (env : Env) (cfg : CrawlCfg)
    (hmode : cfg.searchUrl = none) (hunlim : cfg.maxPages ≤ 0)
    (hpages : ∀ n, ∃ p, env.atOffset n = .ok p ∧ p.looksResults = true ∧ p.items = []) :
    ∀ fuel, 5 ≤ fuel →
      isFinished (crawlRun env cfg fuel (initState cfg)) = true
      ∧ (stateOf (crawlRun env cfg fuel (initState cfg))).pageCount = 5
      ∧ crawlItems cfg (crawlRun env cfg fuel (initState cfg)) = some [] := by
  intro fuel hfuel
  have hrun := crawlRun_empty_offset env cfg hunlim hpages fuel 0 (initState cfg)
    (by simp [initState, hmode]) rfl (by omega) (by omega)
  rw [hrun]
  refine ⟨rfl, rfl, ?_⟩
  simp [crawlItems, initState, pySliceTake]

/-- Witness for C1: the always-empty offset source with unlimited pages
and fuel 7 finishes at page count 5 with no items. -/
theorem crawl_empty_pages_halt_at_five_witness :
    isFinished (crawlRun ⟨fun _ => .ok ⟨true, [], none⟩, fun _ => none, fun _ => .notFound⟩
        ⟨true, 0, 0, none⟩ 7 (initState ⟨true, 0, 0, none⟩)) = true
    ∧ (stateOf (crawlRun ⟨fun _ => .ok ⟨true, [], none⟩, fun _ => none, fun _ => .notFound⟩
        ⟨true, 0, 0, none⟩ 7 (initState ⟨true, 0, 0, none⟩))).pageCount = 5
    ∧ crawlItems ⟨true, 0, 0, none⟩
        (crawlRun ⟨fun _ => .ok ⟨true, [], none⟩, fun _ => none, fun _ => .notFound⟩
          ⟨true, 0, 0, none⟩ 7 (initState ⟨true, 0, 0, none⟩)) = some [] :=
  crawl_empty_pages_halt_at_five
    ⟨fun _ => .ok ⟨true, [], none⟩, fun _ => none, fun _ => .notFound⟩
    ⟨true, 0, 0, none⟩ rfl (by decide)
    (fun n => ⟨⟨true, [], none⟩, rfl, rfl, rfl⟩) 7 (by decide)

lemma crawlStep_shell_offset (env : Env) (cfg : CrawlCfg) (s : CrawlState) (p : Page)
    (hnext : s.nextUrl = none) (hp : env.atOffset s.currentStart = .ok p)
    (hlooks : p.looksResults = false)
    (hfb : env.atFallback s.currentStart = none
        ∨ ∃ alt, env.atFallback s.currentStart = some alt ∧ alt.looksResults = false) :
    crawlStep env cfg s =
      if s.shellStreak + 1 ≥ 3 then
        .fatal { s with pageCount := s.pageCount + 1, shellStreak := s.shellStreak + 1 }
      else
        .next { s with
                pageCount := s.pageCount + 1, shellStreak := s.shellStreak + 1,
                currentStart := s.currentStart + DEFAULT_PAGE_SIZE } := by
  unfold crawlStep advance
  rcases hfb with hfb | ⟨alt, hfb, haltl⟩
  · simp [hnext, hp, hlooks, hfb]
  · simp [hnext, hp, hlooks, hfb, haltl]

lemma crawlStep_shell_cont (env : Env) (cfg : CrawlCfg) (s : CrawlState) (u : String)
    (p : Page) (hnext : s.nextUrl = some u) (hp : env.atCont u = .ok p)
    (hlooks : p.looksResults = false) :
    crawlStep env cfg s =
      if s.shellStreak + 1 ≥ 3 then
        .fatal { s with pageCount := s.pageCount + 1, shellStreak := s.shellStreak + 1 }
      else
        .stop { s with pageCount := s.pageCount + 1, shellStreak := s.shellStreak + 1 } := by
  unfold crawlStep advance
  simp [hnext, hp, hlooks]

set_option maxHeartbeats 1600000 in
lemma crawlStep_results_resets_shell (env : Env) (cfg : CrawlCfg) (s : CrawlState)
    (p : Page) (hf : fetchedOf env s = .ok p)
    (hacc : p.looksResults = true
        ∨ (s.nextUrl = none ∧ ∃ alt, env.atFallback s.currentStart = some alt
            ∧ alt.looksResults = true)) :
    (stepState (crawlStep env cfg s)).shellStreak = 0 := by
  unfold fetchedOf at hf
  unfold crawlStep advance
  rcases hacc with hacc | ⟨hnone, alt, hfb, haltl⟩
  · cases hnu : s.nextUrl with
    | none =>
      rw [hnu] at hf
      dsimp only at hf
      simp only [hnu]
      dsimp only
      repeat' split
      all_goals first | rfl | simp_all
    | some u =>
      rw [hnu] at hf
      dsimp only at hf
      simp only [hnu]
      dsimp only
      repeat' split
      all_goals first | rfl | simp_all
  · rw [hnone] at hf
    try dsimp only at hf
    simp only [hnone]
    try dsimp only
    repeat' split
    all_goals first | rfl | simp_all

lemma crawlRun_shell_offset (env : Env) (cfg : CrawlCfg)
    (hunlim : cfg.maxPages ≤ 0)
    (hpages : ∀ n, ∃ p, env.atOffset n = .ok p ∧ p.looksResults = false)
    (hfb : ∀ n, env.atFallback n = none
        ∨ ∃ alt, env.atFallback n = some alt ∧ alt.looksResults = false) :
    ∀ (fuel k : Nat) (s : CrawlState), s.nextUrl = none → s.shellStreak = k → k < 3 →
      3 - k ≤ fuel →
      crawlRun env cfg fuel s =
        .fatal { s with
                 pageCount := s.pageCount + (3 - k),
                 currentStart := s.currentStart + DEFAULT_PAGE_SIZE * (2 - k),
                 shellStreak := 3 } := by
  intro fuel
  induction fuel with
  | zero => intro k s _ _ hklt hfuel; omega
  | succ m ih =>
    intro k s hnext hk hklt hfuel
    obtain ⟨p, hp, hlooks⟩ := hpages s.currentStart
    unfold crawlRun
    rw [if_pos (Or.inl hunlim),
      crawlStep_shell_offset env cfg s p hnext hp hlooks (hfb s.currentStart)]
    by_cases hck : s.shellStreak + 1 ≥ 3
    · rw [if_pos hck]
      have hk2 : k = 2 := by omega
      subst hk2
      cases s
      dsimp only at hk ⊢
      subst hk
      rfl
    · rw [if_neg hck]
      dsimp only
      have hck' : k + 1 < 3 := by rw [← hk]; omega
      rw [ih (k + 1) _ (by simp [hnext]) (by simp [hk]) (by omega) (by omega)]
      cases s
      dsimp only at hk ⊢
      subst hk
      congr 1
      simp only [CrawlState.mk.injEq, DEFAULT_PAGE_SIZE]
      refine ⟨by omega, trivial, trivial, by omega, trivial, trivial, trivial⟩

/-- C3: non-results pages (after the one offset-mode fallback fetch)
feed a shell-page streak: 3 consecutive shell pages abort the crawl
with an error and no partial results; below 3, offset addressing
advances the offset and continues while continuation addressing stops
the crawl; the streak resets to 0 on any accepted results page. -/
theorem crawl_shell_page_streak_spec (env : Env) (cfg : CrawlCfg) :
    (cfg.searchUrl = none → cfg.maxPages ≤ 0 →
      (∀ n, ∃ p, env.atOffset n = .ok p ∧ p.looksResults = false) →
      (∀ n, env.atFallback n = none
          ∨ ∃ alt, env.atFallback n = some alt ∧ alt.looksResults = false) →
      ∀ fuel, 3 ≤ fuel →
        isFatal (crawlRun env cfg fuel (initState cfg)) = true
        ∧ crawlItems cfg (crawlRun env cfg fuel (initState cfg)) = none
        ∧ (stateOf (crawlRun env cfg fuel (initState cfg))).pageCount = 3
        ∧ (stateOf (crawlRun env cfg fuel (initState cfg))).shellStreak = 3)
    ∧ (∀ u p, cfg.searchUrl = some u → pyStrip u = u → u ≠ "" →
        env.atCont u = .ok p → p.looksResults = false →
        ∀ m, crawlRun env cfg (m + 1) (initState cfg)
            = .finished { initState cfg with pageCount := 1, shellStreak := 1 }
          ∧ crawlItems cfg (crawlRun env cfg (m + 1) (initState cfg)) = some [])
    ∧ (∀ s p, s.nextUrl = none → env.atOffset s.currentStart = .ok p →
        p.looksResults = false →
        (env.atFallback s.currentStart = none
          ∨ ∃ alt, env.atFallback s.currentStart = some alt ∧ alt.looksResults = false) →
        s.shellStreak + 1 < 3 →
        crawlStep env cfg s = .next { s with
          pageCount := s.pageCount + 1, shellStreak := s.shellStreak + 1,
          currentStart := s.currentStart + DEFAULT_PAGE_SIZE })
    ∧ (∀ s p, fetchedOf env s = .ok p →
        (p.looksResults = true
          ∨ (s.nextUrl = none ∧ ∃ alt, env.atFallback s.currentStart = some alt
              ∧ alt.looksResults = true)) →
        (stepState (crawlStep env cfg s)).shellStreak = 0) := by
  refine ⟨?_, ?_, ?_, ?_⟩
  · intro hmode hunlim hpages hfb fuel hfuel
    have hrun := crawlRun_shell_offset env cfg hunlim hpages hfb fuel 0 (initState cfg)
      (by simp [initState, hmode]) rfl (by omega) (by omega)
    rw [hrun]
    exact ⟨rfl, rfl, rfl, rfl⟩
  · intro u p hu hstrip hne hcont hlooks m
    have hnext : (initState cfg).nextUrl = some u := by
      simp [initState, hu, hne, hstrip]
    have hcond : cfg.maxPages ≤ 0 ∨ ((initState cfg).pageCount : Int) < cfg.maxPages := by
      simp [initState]; omega
    have hrun : crawlRun env cfg (m + 1) (initState cfg)
        = .finished { initState cfg with pageCount := 1, shellStreak := 1 } := by
      unfold crawlRun
      rw [if_pos hcond, crawlStep_shell_cont env cfg (initState cfg) u p hnext hcont hlooks]
      rw [if_neg (by simp [initState])]
      rfl
    rw [hrun]
    refine ⟨rfl, ?_⟩
    simp [crawlItems, initState, pySliceTake]
  · intro s p hnext hp hlooks hfb hlt
    rw [crawlStep_shell_offset env cfg s p hnext hp hlooks hfb, if_neg (by omega)]
  · intro s p hf hacc
    exact crawlStep_results_resets_shell env cfg s p hf hacc

/-- Witness for C3: a concrete all-shell offset source aborts fatally at
page 3 with no items; a concrete shell continuation source stops after
one page; a first shell page under offset addressing advances the
offset to 49 and continues; a results page resets the streak. -/
theorem crawl_shell_page_streak_spec_witness :
    isFatal (crawlRun ⟨fun _ => .ok ⟨false, [], none⟩, fun _ => none, fun _ => .notFound⟩
        ⟨true, 0, 0, none⟩ 3 (initState ⟨true, 0, 0, none⟩)) = true
    ∧ crawlItems ⟨true, 0, 0, none⟩
        (crawlRun ⟨fun _ => .ok ⟨false, [], none⟩, fun _ => none, fun _ => .notFound⟩
          ⟨true, 0, 0, none⟩ 3 (initState ⟨true, 0, 0, none⟩)) = none
    ∧ crawlRun ⟨fun _ => .notFound, fun _ => none, fun _ => .ok ⟨false, [], none⟩⟩
        ⟨true, 0, 0, some "u"⟩ 1 (initState ⟨true, 0, 0, some "u"⟩)
        = .finished { initState ⟨true, 0, 0, some "u"⟩ with
                      pageCount := 1, shellStreak := 1 }
    ∧ crawlStep ⟨fun _ => .ok ⟨false, [], none⟩, fun _ => none, fun _ => .notFound⟩
        ⟨true, 0, 0, none⟩ ⟨1, [], [], 0, 0, 0, none⟩
        = .next ⟨49, [], [], 1, 0, 1, none⟩
    ∧ (stepState (crawlStep ⟨fun _ => .ok ⟨true, [], none⟩, fun _ => none, fun _ => .notFound⟩
        ⟨true, 0, 0, none⟩ ⟨1, [], [], 0, 0, 2, none⟩)).shellStreak = 0 := by
  have HA := crawl_shell_page_streak_spec
    ⟨fun _ => .ok ⟨false, [], none⟩, fun _ => none, fun _ => .notFound⟩ ⟨true, 0, 0, none⟩
  have HB := crawl_shell_page_streak_spec
    ⟨fun _ => .notFound, fun _ => none, fun _ => .ok ⟨false, [], none⟩⟩
    ⟨true, 0, 0, some "u"⟩
  have HC := crawl_shell_page_streak_spec
    ⟨fun _ => .ok ⟨true, [], none⟩, fun _ => none, fun _ => .notFound⟩ ⟨true, 0, 0, none⟩
  have ha := HA.1 rfl (by decide) (fun n => ⟨⟨false, [], none⟩, rfl, rfl⟩)
    (fun n => Or.inl rfl) 3 (by decide)
  have hb := HB.2.1 "u" ⟨false, [], none⟩ rfl (by decide) (by decide) rfl rfl 0
  have hc := HA.2.2.1 ⟨1, [], [], 0, 0, 0, none⟩ ⟨false, [], none⟩ rfl rfl rfl
    (Or.inl rfl) (by decide)
  have hd := HC.2.2.2 ⟨1, [], [], 0, 0, 2, none⟩ ⟨true, [], none⟩ rfl (Or.inl rfl)
  exact ⟨ha.1, ha.2.1, hb.1, hc, hd⟩

end ML
